import Mathlib

/-!
Shallow embedding of `pure_protobuf/dataclasses_.py` (schema compiler for an
annotated record definition) together with the parts of its collaborators
that the source file visibly relies on.  Declared Python field types are
modelled by the inductive `PyType`, the serializer registry `SERIALIZERS`
and the rendering table `PYTHON_TO_PROTOBUF_TYPES` are modelled as lookup
functions, and the `@message` decorator's construction of
`__protobuf_fields__` (a Python `dict` built from `make_field` results) is
modelled by `message` / `buildDict` with Python dict insertion semantics
(first-insertion position is kept, the value of a repeated key is
overwritten by the later insertion).
-/

namespace PB

/-- Keys of the fixed scalar serializer table `SERIALIZERS`
(src lines 233-255): Python builtin types, the marker types from
`pure_protobuf.types`, and the well-known wrapper value types. -/
inductive ScalarKey where
  | boolT | bytesT | byteStringT | floatT | intT | strT
  | doubleT | fixed32T | fixed64T | sfixed32T | sfixed64T
  | sint32T | sint64T | uint32T | uint64T | uintT
  | uint32Value | boolValue | stringValue
deriving DecidableEq

/-- Modelled from the spec: the fixed enumeration of wire-type categories
consumed from the missing `pure_protobuf.enums` module (spec section 6: at
minimum variable-length integer, 32-bit fixed, 64-bit fixed,
length-delimited).  The source only compares against `WireType.BYTES`. -/
inductive WireType where
  | varint | fixed32 | fixed64 | bytes
deriving DecidableEq

/-- The encoding strategies selected by `make_field`: the named serializer
instances of the `SERIALIZERS` table, `IntEnumSerializer(type_)` for
integer-backed enumerations and `PackingSerializer(type_.serializer)` for
embedded messages (src lines 170-182). -/
inductive Serializer where
  | boolean | bytesS | floatS | signedVarint | stringS
  | doubleS | unsignedFixed32 | unsignedFixed64 | signedFixed32 | signedFixed64
  | signedInt32 | signedInt64 | unsignedInt32 | unsignedInt64 | unsignedVarint
  | intEnumS (enumName : String)
  | packingS (innerTypeName : String)
deriving DecidableEq

/-- Modelled from the spec: the wire-type category of each strategy, fixed
in the missing `pure_protobuf.serializers` module (spec sections 4.2/4.3/6:
text, raw bytes and nested messages are length-delimited; fixed-width
32/64-bit numerics are the fixed categories; booleans, variable-length
integers and enumerations are varint-like). -/
def Serializer.wire_type : Serializer → WireType
  | .boolean => .varint
  | .bytesS => .bytes
  | .floatS => .fixed32
  | .signedVarint => .varint
  | .stringS => .bytes
  | .doubleS => .fixed64
  | .unsignedFixed32 => .fixed32
  | .unsignedFixed64 => .fixed64
  | .signedFixed32 => .fixed32
  | .signedFixed64 => .fixed64
  | .signedInt32 => .varint
  | .signedInt64 => .varint
  | .unsignedInt32 => .varint
  | .unsignedInt64 => .varint
  | .unsignedVarint => .varint
  | .intEnumS _ => .varint
  | .packingS _ => .bytes

/-- Modelled from the spec: `hasattr(serializer, "inner")` for the missing
serializer classes.  Per spec section 4.2 the NestedMessage strategy is the
only one holding a reference to an inner descriptor, matching
`PackingSerializer(type_.serializer)` being the only wrapper built by
`make_field` (src line 172). -/
def Serializer.hasInner : Serializer → Bool
  | .packingS _ => true
  | _ => false

/-- The name `serializer.inner.type_.__name__` read by `make_field`
(src line 189); only ever read when `hasInner` holds. -/
def Serializer.innerName : Serializer → String
  | .packingS nm => nm
  | _ => ""

/-- Declared Python field types as they reach `make_field` via
`get_type_hints`: scalar-table keys, `@message`-decorated record classes,
`IntEnum` subclasses, `NoneType`, `List[T]`-style sequence wrappers and
`typing.Union` applications with two or three (already deduplicated by
`typing`) arguments. -/
inductive PyType where
  | scalar (k : ScalarKey)
  | message (name : String)
  | intEnum (name : String)
  | noneType
  | listOf (t : PyType)
  | union2 (a b : PyType)
  | union3 (a b c : PyType)
deriving DecidableEq

/-- The `typing.Union` argument tuple `type_.__args__` when the declared
type is a union application, `none` otherwise. -/
def unionArgs : PyType → Option (List PyType)
  | .union2 a b => some [a, b]
  | .union3 a b c => some [a, b, c]
  | _ => none

/-- Python `set(...)` over union arguments (src line 211): only
cardinality, membership and the unique non-None remainder are consumed. -/
def pySet : List PyType → List PyType
  | [] => []
  | a :: rest =>
    let r := pySet rest
    if a ∈ r then r else a :: r

/-- `get_optional` (src lines 205-219): recognizes a two-member union with
`NoneType`, extracting the inner type; every other declared type —
including every other union — is passed through unchanged with `False`. -/
def get_optional (t : PyType) : Bool × PyType :=
  match unionArgs t with
  | some args =>
    let s := pySet args
    if s.length = 2 ∧ PyType.noneType ∈ s then
      (true, (s.filter (fun a => a ≠ PyType.noneType)).headD t)
    else
      (false, t)
  | none => (false, t)

/-- `get_repeated` (src lines 222-230): a single-parameter sequence
wrapper (`list`/`List`/`Iterable`) yields its element type. -/
def get_repeated (t : PyType) : Bool × PyType :=
  match t with
  | .listOf inner => (true, inner)
  | _ => (false, t)

/-- The fixed scalar serializer table `SERIALIZERS` (src lines 233-255),
as a lookup function: every scalar key is mapped, every other type is
absent (`KeyError` in the source). -/
def SERIALIZERS : PyType → Option Serializer
  | .scalar .boolT => some .boolean
  | .scalar .bytesT => some .bytesS
  | .scalar .byteStringT => some .bytesS
  | .scalar .floatT => some .floatS
  | .scalar .intT => some .signedVarint
  | .scalar .strT => some .stringS
  | .scalar .doubleT => some .doubleS
  | .scalar .fixed32T => some .unsignedFixed32
  | .scalar .fixed64T => some .unsignedFixed64
  | .scalar .sfixed32T => some .signedFixed32
  | .scalar .sfixed64T => some .signedFixed64
  | .scalar .sint32T => some .signedInt32
  | .scalar .sint64T => some .signedInt64
  | .scalar .uint32T => some .unsignedInt32
  | .scalar .uint64T => some .unsignedInt64
  | .scalar .uintT => some .unsignedVarint
  | .scalar .uint32Value => some .unsignedInt32
  | .scalar .boolValue => some .boolean
  | .scalar .stringValue => some .stringS
  | _ => none

/-- The rendering-name table `PYTHON_TO_PROTOBUF_TYPES`
(src lines 257-278), as a lookup function; `.get(type_, None)` in the
source defaults to `None` for absent keys. -/
def PYTHON_TO_PROTOBUF_TYPES : PyType → Option String
  | .scalar .boolT => some "bool"
  | .scalar .bytesT => some "str"
  | .scalar .byteStringT => some "str"
  | .scalar .floatT => some "float"
  | .scalar .intT => some "int32"
  | .scalar .strT => some "string"
  | .scalar .doubleT => some "double"
  | .scalar .fixed32T => some "fixed32"
  | .scalar .fixed64T => some "fixed64"
  | .scalar .sfixed32T => some "sfixed32"
  | .scalar .sfixed64T => some "sfixed64"
  | .scalar .sint32T => some "sint32"
  | .scalar .sint64T => some "sint64"
  | .scalar .uint32T => some "uint32"
  | .scalar .uint64T => some "uint64"
  | .scalar .uintT => some "uint32"
  | .scalar .uint32Value => some "google.protobuf.UInt32Value"
  | .scalar .boolValue => some "google.protobuf.BoolValue"
  | .scalar .stringValue => some "google.protobuf.StringValue"
  | _ => none

/-- Schema-compile-time failures of `make_field`.  The source raises
`TypeError(f'type is not serializable: \x7btype_\x7d')` naming the
offending type (src line 182); the `unionNotSupported` constructor names
the error kind that the spec claims for multi-member unions, which the
source never raises — it exists so that statements can distinguish the two
error kinds. -/
inductive SchemaError where
  | typeNotSerializable (t : PyType)
  | unionNotSupported (t : PyType)
deriving DecidableEq

/-- The serializer branch of `make_field` (src lines 169-182): embedded
message, then integer-backed enumeration, then the scalar table, else the
`type is not serializable` failure. -/
def resolve_serializer : PyType → Except SchemaError Serializer
  | .message nm => .ok (.packingS nm)
  | .intEnum nm => .ok (.intEnumS nm)
  | t =>
    match SERIALIZERS t with
    | some s => .ok s
    | none => .error (.typeNotSerializable t)

/-- The compiled per-field descriptors `NonRepeatedField`,
`PackedRepeatedField` and `UnpackedRepeatedField` of the missing
`pure_protobuf.fields` module, holding exactly the constructor arguments
passed by `make_field` (src lines 195-202). -/
inductive Field where
  | nonRepeated (number : Nat) (name : String) (serializer : Serializer)
      (is_optional : Bool) (proto_type : Option String)
  | packedRepeated (number : Nat) (name : String) (serializer : Serializer)
      (proto_type : Option String)
  | unpackedRepeated (number : Nat) (name : String) (serializer : Serializer)
      (proto_type : Option String)
deriving DecidableEq

def Field.name : Field → String
  | .nonRepeated _ nm _ _ _ => nm
  | .packedRepeated _ nm _ _ => nm
  | .unpackedRepeated _ nm _ _ => nm

def Field.proto_type : Field → Option String
  | .nonRepeated _ _ _ _ pt => pt
  | .packedRepeated _ _ _ pt => pt
  | .unpackedRepeated _ _ _ pt => pt

def Field.serializer : Field → Serializer
  | .nonRepeated _ _ s _ _ => s
  | .packedRepeated _ _ s _ => s
  | .unpackedRepeated _ _ s _ => s

/-- A field has a repeated shape exactly when it was built as
`PackedRepeatedField` or `UnpackedRepeatedField`. -/
def Field.is_repeated : Field → Bool
  | .nonRepeated _ _ _ _ _ => false
  | .packedRepeated _ _ _ _ => true
  | .unpackedRepeated _ _ _ _ => true

/-- `make_field` (src lines 161-202): strips the optional wrapper, then
the repeated wrapper, resolves the serializer, derives the rendering name
(`serializer.inner.type_.__name__` for embedded messages, otherwise
`PYTHON_TO_PROTOBUF_TYPES.get(type_, None)`), and finally picks the field
shape: non-repeated, else packed unless the wire type is BYTES. -/
def make_field (number : Nat) (name : String) (type0 : PyType) :
    Except SchemaError (Nat × Field) :=
  let p1 := get_optional type0
  let p2 := get_repeated p1.2
  match resolve_serializer p2.2 with
  | .error e => .error e
  | .ok serializer =>
    let protobuf_type :=
      if serializer.hasInner then some serializer.innerName
      else PYTHON_TO_PROTOBUF_TYPES p2.2
    if p2.1 = false then
      .ok (number, Field.nonRepeated number name serializer p1.1 protobuf_type)
    else if serializer.wire_type ≠ WireType.bytes then
      .ok (number, Field.packedRepeated number name serializer protobuf_type)
    else
      .ok (number, Field.unpackedRepeated number name serializer protobuf_type)

/-- One insertion step of a Python `dict`: an existing key keeps its
first-insertion position and has its value overwritten, a fresh key is
appended. -/
def dictInsert (m : List (Nat × Field)) (p : Nat × Field) : List (Nat × Field) :=
  if m.any (fun q => q.1 = p.1) then
    m.map (fun q => if q.1 = p.1 then p else q)
  else
    m ++ [p]

/-- `dict(pairs)` over the generator of `(number, field)` pairs
(src lines 141-144). -/
def buildDict (pairs : List (Nat × Field)) : List (Nat × Field) :=
  pairs.foldl dictInsert []

mutual
/-- The compiled descriptor attached to a record class: its name, its
inner record classes (`vars(cls)` order, consumed by `to_proto`) and the
insertion-ordered number-keyed mapping `__protobuf_fields__`. -/
inductive MessageDescriptor where
  | mk (name : String) (inner : InnerClasses) (fields : List (Nat × Field))

/-- The declared inner `@message` classes of a record class. -/
inductive InnerClasses where
  | nil
  | cons (c : MessageDescriptor) (rest : InnerClasses)
end

def MessageDescriptor.name : MessageDescriptor → String
  | .mk nm _ _ => nm

def MessageDescriptor.fields : MessageDescriptor → List (Nat × Field)
  | .mk _ _ fs => fs

/-- The generator `make_field(...) for field_ in dataclasses.fields(cls)`
(src lines 142-143): the `(number, field)` pair of every declared triple
in declaration order, aborting on the first `make_field` failure. -/
def collect_fields : List (Nat × String × PyType) →
    Except SchemaError (List (Nat × Field))
  | [] => .ok []
  | d :: rest =>
    match make_field d.1 d.2.1 d.2.2 with
    | .error e => .error e
    | .ok p =>
      match collect_fields rest with
      | .error e => .error e
      | .ok ps => .ok (p :: ps)

/-- The schema-compiling part of the `@message` decorator
(src lines 132-158): build `(number, field)` pairs from the declared
triples with `make_field` (any failure aborts the class definition) and
collect them into the number-keyed dict `__protobuf_fields__`. -/
def message (name : String) (inner : InnerClasses)
    (decls : List (Nat × String × PyType)) : Except SchemaError MessageDescriptor :=
  match collect_fields decls with
  | .error e => .error e
  | .ok pairs => .ok (MessageDescriptor.mk name inner (buildDict pairs))

/-- `_add_repeated` (src lines 119-120). -/
def add_repeated : Field → String
  | .packedRepeated _ _ _ _ => "repeated "
  | .unpackedRepeated _ _ _ _ => "repeated "
  | _ => ""

/-- Python f-string rendering of `field_.proto_type`: `None` prints as
the literal text `None`. -/
def protoTypeRender : Option String → String
  | some s => s
  | none => "None"

/-- `' ' * 4 * indent_level` (src line 123). -/
def indentOf (lvl : Nat) : String :=
  String.mk (List.replicate (4 * lvl) ' ')

/-- One rendered field line body (src line 126):
four spaces, the repeated keyword when applicable, the rendering name, the
field name and the field number. -/
def field_line (p : Nat × Field) : String :=
  "    " ++ add_repeated p.2 ++ protoTypeRender p.2.proto_type ++ " " ++
    p.2.name ++ " = " ++ toString p.1 ++ ";"

mutual
/-- The `msg_line` list built by `to_proto` (src lines 122-128), each
element prefixed with the indentation of the current level: the header,
one (multi-line) element per inner record class, one element per field in
mapping order, and the closing brace. -/
def proto_lines : MessageDescriptor → Nat → List String
  | .mk name inner fields, lvl =>
    (("message " ++ name ++ " \x7b") ::
        (inner_protos inner lvl ++ fields.map field_line ++ ["\x7d"])).map
      (fun l => indentOf lvl ++ l)

/-- The recursive `inner_class.to_proto(indent_level + 1)` calls
(src line 125). -/
def inner_protos : InnerClasses → Nat → List String
  | .nil, _ => []
  | .cons c rest, lvl =>
    String.intercalate "\n" (proto_lines c (lvl + 1)) :: inner_protos rest lvl
end

/-- `to_proto` (src lines 118-129). -/
def to_proto (d : MessageDescriptor) (indent_level : Nat) : String :=
  String.intercalate "\n" (proto_lines d indent_level)

/-- Elements of a repeated field's runtime sequence. -/
inductive Elem where
  | intE (n : Int)
  | strE (s : String)
deriving DecidableEq

/-- Runtime attribute values of a message instance: the absent marker is
Python `None`; scalar payloads and element sequences are enough for the
merge and oneof behaviour under study. -/
inductive Value where
  | absent
  | intV (n : Int)
  | strV (s : String)
  | listV (vs : List Elem)
deriving DecidableEq

/-- Modelled from the spec: the per-field `merge` methods of the missing
`pure_protobuf.fields` module (spec section 4.4) — a repeated field
concatenates a's sequence followed by b's sequence, a non-repeated field
takes b's value when present and a's otherwise.  The NestedMessage
recursive-merge refinement of section 4.4 is not modelled; no claim
depends on it. -/
def Field.merge : Field → Value → Value → Value
  | .nonRepeated _ _ _ _ _, a, b => if b = Value.absent then a else b
  | _, a, b =>
    match a, b with
    | Value.listV xs, Value.listV ys => Value.listV (xs ++ ys)
    | _, _ => b

/-- Python `setattr` on an instance modelled as a map from attribute name
to value. -/
def setattr (m : String → Value) (k : String) (v : Value) : String → Value :=
  fun n => if n = k then v else m n

/-- `Message.merge_from` (src lines 56-64): walk `__protobuf_fields__` in
mapping (declaration) order and overwrite each field attribute of `self`
with `field_.merge(getattr(self, name), getattr(other, name))`. -/
def merge_from (fields : List (Nat × Field)) (a b : String → Value) :
    String → Value :=
  fields.foldl
    (fun acc p => setattr acc p.2.name (p.2.merge (acc p.2.name) (b p.2.name)))
    a

/-- `OneOf.__get__` (src lines 77-85): walk the member fields in the order
given to the constructor and return the first attribute value that is not
`None`, else `None`.  The accessor reads the instance and owns no storage
beyond the member field references, so it is a pure function of the
members and the instance here. -/
def OneOf.get (fields : List Field) (message_ : String → Value) : Value :=
  match fields with
  | [] => Value.absent
  | f :: rest =>
    if message_ f.name ≠ Value.absent then message_ f.name
    else OneOf.get rest message_

/-- The declared triples of the `GitInfo` record of
`tests/test_dataclasses_to_proto.py` (lines 13-18). -/
def gitInfoDecls : List (Nat × String × PyType) :=
  [(1, "branch_name", .scalar .strT),
   (2, "committed_datetime", .scalar .strT),
   (3, "hexsha", .scalar .strT)]

/-- The declared triples of the `InputRefDataSkill` record of
`tests/test_dataclasses_to_proto.py` (lines 45-54): field numbers are
declared out of numeric order (2, 4, 1, 3, 5, 6). -/
def skillDecls : List (Nat × String × PyType) :=
  [(2, "name", .scalar .strT),
   (4, "occurrences", .scalar .uint32T),
   (1, "skill_id", .scalar .uint32Value),
   (3, "category_id", .scalar .uint32Value),
   (5, "parent_id", .scalar .uint32Value),
   (6, "active", .scalar .boolValue)]

/-- The `(number, field)` pairs `make_field` produces for `skillDecls`. -/
def skillFields : List (Nat × Field) :=
  [(2, .nonRepeated 2 "name" .stringS false (some "string")),
   (4, .nonRepeated 4 "occurrences" .unsignedInt32 false (some "uint32")),
   (1, .nonRepeated 1 "skill_id" .unsignedInt32 false
      (some "google.protobuf.UInt32Value")),
   (3, .nonRepeated 3 "category_id" .unsignedInt32 false
      (some "google.protobuf.UInt32Value")),
   (5, .nonRepeated 5 "parent_id" .unsignedInt32 false
      (some "google.protobuf.UInt32Value")),
   (6, .nonRepeated 6 "active" .boolean false
      (some "google.protobuf.BoolValue"))]

/-- The `(number, field)` pairs `make_field` produces for `gitInfoDecls`. -/
def gitInfoFields : List (Nat × Field) :=
  [(1, .nonRepeated 1 "branch_name" .stringS false (some "string")),
   (2, .nonRepeated 2 "committed_datetime" .stringS false (some "string")),
   (3, .nonRepeated 3 "hexsha" .stringS false (some "string"))]

/-- A two-field descriptor mapping for demonstrating the merge laws: an
optional float plus a repeated string field. -/
def mergeDemoFields : List (Nat × Field) :=
  [(1, .nonRepeated 1 "score" .floatS true (some "float")),
   (2, .unpackedRepeated 2 "skills" .stringS (some "string"))]

/-- A concrete instance `a` for the merge demonstration. -/
def mergeDemoA : String → Value :=
  fun nm =>
    if nm = "score" then .intV 5
    else if nm = "skills" then .listV [.strE "a1", .strE "a2"]
    else .absent

/-- A concrete instance `b` for the merge demonstration: its `score`
attribute is absent. -/
def mergeDemoB : String → Value :=
  fun nm => if nm = "skills" then .listV [.strE "b1"] else .absent

/-- Two member fields of a oneof group for the accessor demonstration. -/
def oneofDemoFields : List Field :=
  [.nonRepeated 1 "first_name" .stringS true (some "string"),
   .nonRepeated 2 "nick" .stringS true (some "string")]

/-- A concrete instance whose first oneof member is absent and whose
second carries a value. -/
def oneofDemoInstance : String → Value :=
  fun nm => if nm = "nick" then .strV "kit" else .absent

/-! Helper lemmas shared by the claim theorems. -/

theorem dictInsert_fresh (m : List (Nat × Field)) (p : Nat × Field)
    (h : ∀ q ∈ m, q.1 ≠ p.1) : dictInsert m p = m ++ [p] := by
  unfold dictInsert
  rw [if_neg]
  simp only [List.any_eq_true, decide_eq_true_eq, not_exists]
  exact fun q hq => h q hq.1 hq.2

theorem buildDict_go (ps : List (Nat × Field)) :
    ∀ acc : List (Nat × Field), ((acc ++ ps).map Prod.fst).Nodup →
      ps.foldl dictInsert acc = acc ++ ps := by
  induction ps with
  | nil => intro acc _; simp
  | cons p ps ih =>
    intro acc hacc
    have hfresh : ∀ q ∈ acc, q.1 ≠ p.1 := by
      intro q hq hqe
      have h1 : q.1 ∈ acc.map Prod.fst := List.mem_map_of_mem Prod.fst hq
      have h2 : q.1 ∈ ((p :: ps).map Prod.fst) := by rw [hqe]; simp
      have hdis := (List.nodup_append.mp (by simpa using hacc)).2.2
      exact hdis h1 h2
    rw [List.foldl_cons, dictInsert_fresh acc p hfresh]
    have := ih (acc ++ [p]) (by simpa using hacc)
    simpa using this

theorem buildDict_eq_self (pairs : List (Nat × Field))
    (h : (pairs.map Prod.fst).Nodup) : buildDict pairs = pairs := by
  have := buildDict_go pairs [] (by simpa using h)
  simpa [buildDict] using this

theorem collect_fields_mem_ok (decls : List (Nat × String × PyType))
    (pairs : List (Nat × Field)) (h : collect_fields decls = .ok pairs) :
    ∀ x ∈ decls, ∃ p, make_field x.1 x.2.1 x.2.2 = .ok p := by
  induction decls generalizing pairs with
  | nil => simp
  | cons d rest ih =>
    intro x hx
    unfold collect_fields at h
    cases hmf : make_field d.1 d.2.1 d.2.2 with
    | error e => rw [hmf] at h; cases h
    | ok p =>
      rw [hmf] at h
      cases hcf : collect_fields rest with
      | error e => rw [hcf] at h; cases h
      | ok ps =>
        rcases List.mem_cons.mp hx with rfl | hx'
        · exact ⟨p, hmf⟩
        · exact ih ps hcf x hx'

theorem message_not_ok_of_bad (name : String) (inner : InnerClasses)
    (decls : List (Nat × String × PyType)) (x : Nat × String × PyType)
    (e : SchemaError) (hmem : x ∈ decls)
    (hx : make_field x.1 x.2.1 x.2.2 = .error e) :
    ∀ d, message name inner decls ≠ .ok d := by
  intro d hok
  unfold message at hok
  cases hcf : collect_fields decls with
  | error e' => rw [hcf] at hok; cases hok
  | ok pairs =>
    rcases collect_fields_mem_ok decls pairs hcf x hmem with ⟨p, hp⟩
    rw [hx] at hp
    cases hp

theorem merge_from_not_mem (fields : List (Nat × Field)) (b : String → Value)
    (x : String) (hx : ∀ p ∈ fields, p.2.name ≠ x) :
    ∀ a, merge_from fields a b x = a x := by
  induction fields with
  | nil => intro a; rfl
  | cons p ps ih =>
    intro a
    have step : merge_from (p :: ps) a b =
        merge_from ps (setattr a p.2.name (p.2.merge (a p.2.name) (b p.2.name))) b := by
      simp [merge_from, List.foldl_cons]
    rw [step, ih (fun q hq => hx q (List.mem_cons_of_mem p hq))]
    unfold setattr
    rw [if_neg]
    exact fun hxe => hx p (List.mem_cons_self p ps) hxe.symm

theorem merge_from_mem (fields : List (Nat × Field)) (b : String → Value)
    (n : Nat) (f : Field) (hmem : (n, f) ∈ fields)
    (hnd : (fields.map (fun p => p.2.name)).Nodup) :
    ∀ a, merge_from fields a b f.name = f.merge (a f.name) (b f.name) := by
  induction fields with
  | nil => cases hmem
  | cons p ps ih =>
    intro a
    have step : merge_from (p :: ps) a b =
        merge_from ps (setattr a p.2.name (p.2.merge (a p.2.name) (b p.2.name))) b := by
      simp [merge_from, List.foldl_cons]
    rw [step]
    rcases List.mem_cons.mp hmem with heq | hmem'
    · have hp2 : p.2 = f := congrArg Prod.snd heq.symm
      have hnotin : ∀ q ∈ ps, q.2.name ≠ f.name := by
        intro q hq hqe
        have h1 : f.name ∈ ps.map (fun p => p.2.name) := by
          rw [← hqe]; exact List.mem_map_of_mem _ hq
        have h2 : p.2.name ∉ ps.map (fun p => p.2.name) := by
          simpa using (List.nodup_cons.mp hnd).1
        rw [hp2] at h2
        exact h2 h1
      rw [merge_from_not_mem ps b f.name hnotin]
      rw [hp2]
      unfold setattr
      rw [if_pos rfl]
    · have hne : f.name ≠ p.2.name := by
        intro hqe
        have h1 : f.name ∈ ps.map (fun p => p.2.name) :=
          List.mem_map_of_mem _ hmem'
        have h2 : p.2.name ∉ ps.map (fun p => p.2.name) := by
          simpa using (List.nodup_cons.mp hnd).1
        rw [← hqe] at h2
        exact h2 h1
      have hset : setattr a p.2.name (p.2.merge (a p.2.name) (b p.2.name)) f.name
          = a f.name := by
        unfold setattr; rw [if_neg hne]
      rw [ih hmem' (List.nodup_cons.mp hnd).2]
      rw [hset]

/-! Claim theorems. -/

/-- C1 counterexample: a record declaring two fields with the same field
number 1 does NOT fail at definition time — `message` succeeds, the
second declaration silently overwrites the first in the number-keyed
mapping, and no "duplicate field number" error is ever raised. -/
theorem C1_counterexample :
    message "M" InnerClasses.nil
        [(1, "a", PyType.scalar .strT), (1, "b", PyType.scalar .strT)] =
      Except.ok (MessageDescriptor.mk "M" InnerClasses.nil
        [(1, Field.nonRepeated 1 "b" .stringS false (some "string"))]) := rfl

/-- C1 amended: compiling a record whose two fields share a field number
succeeds with no error; the resulting mapping holds a single entry for
that number whose field is the one of the later declaration (Python dict
last-value-wins), so the earlier field is silently dropped. -/
theorem C1_duplicate_number_overwrites (name nm1 nm2 : String)
    (inner : InnerClasses) (n : Nat) (t1 t2 : PyType) (f1 f2 : Field)
    (h1 : make_field n nm1 t1 = .ok (n, f1))
    (h2 : make_field n nm2 t2 = .ok (n, f2)) :
    message name inner [(n, nm1, t1), (n, nm2, t2)] =
      .ok (MessageDescriptor.mk name inner [(n, f2)]) := by
  unfold message collect_fields collect_fields
  rw [h1, h2]
  simp [collect_fields, buildDict, dictInsert]

/-- C1 witness: the amended statement at a concrete record with two
fields both numbered 1. -/
theorem C1_witness :
    message "M" InnerClasses.nil
        [(1, "a", PyType.scalar .strT), (1, "b", PyType.scalar .intT)] =
      .ok (MessageDescriptor.mk "M" InnerClasses.nil
        [(1, Field.nonRepeated 1 "b" .signedVarint false (some "int32"))]) :=
  C1_duplicate_number_overwrites "M" "a" "b" InnerClasses.nil 1
    (PyType.scalar .strT) (PyType.scalar .intT)
    (Field.nonRepeated 1 "a" .stringS false (some "string"))
    (Field.nonRepeated 1 "b" .signedVarint false (some "int32")) rfl rfl

/-- C2 counterexample: for the two-member union of int and str — a
multi-member alternative other than \x7bbase, absent-marker\x7d — the Type
Shape Analyzer `get_optional` does not fail at all: it passes the union
through unchanged.  Field construction then fails with the registry's
"type is not serializable" error, not with a
"union types are not supported for fields" error. -/
theorem C2_counterexample :
    get_optional (PyType.union2 (.scalar .intT) (.scalar .strT)) =
      (false, PyType.union2 (.scalar .intT) (.scalar .strT)) ∧
    make_field 1 "x" (PyType.union2 (.scalar .intT) (.scalar .strT)) =
      .error (.typeNotSerializable (PyType.union2 (.scalar .intT) (.scalar .strT))) ∧
    make_field 1 "x" (PyType.union2 (.scalar .intT) (.scalar .strT)) ≠
      .error (.unionNotSupported (PyType.union2 (.scalar .intT) (.scalar .strT))) :=
  ⟨rfl, rfl, by
    intro h
    have h2 : SchemaError.typeNotSerializable
          (PyType.union2 (.scalar .intT) (.scalar .strT)) =
        SchemaError.unionNotSupported
          (PyType.union2 (.scalar .intT) (.scalar .strT)) :=
      Except.error.inj h
    cases h2⟩

/-- C2 amended: for every declared union type that is not exactly
\x7bbase, absent-marker\x7d, `get_optional` passes the union through
unchanged (no branch is silently picked), and `make_field` then fails
loudly at definition time — but with the registry's
"type is not serializable" error naming the union type, not with a
dedicated union error. -/
theorem C2_union_passes_through (n : Nat) (nm : String) (u : PyType)
    (args : List PyType) (hu : unionArgs u = some args)
    (hno : ¬((pySet args).length = 2 ∧ PyType.noneType ∈ pySet args)) :
    get_optional u = (false, u) ∧
    make_field n nm u = .error (.typeNotSerializable u) := by
  cases u with
  | union2 a b =>
    have hargs : args = [a, b] := by
      simp only [unionArgs, Option.some.injEq] at hu
      exact hu.symm
    subst hargs
    have hopt : get_optional (PyType.union2 a b) = (false, PyType.union2 a b) := by
      unfold get_optional
      simp only [unionArgs]
      rw [if_neg hno]
    refine ⟨hopt, ?_⟩
    simp [make_field, hopt, get_repeated, resolve_serializer, SERIALIZERS]
  | union3 a b c =>
    have hargs : args = [a, b, c] := by
      simp only [unionArgs, Option.some.injEq] at hu
      exact hu.symm
    subst hargs
    have hopt : get_optional (PyType.union3 a b c) = (false, PyType.union3 a b c) := by
      unfold get_optional
      simp only [unionArgs]
      rw [if_neg hno]
    refine ⟨hopt, ?_⟩
    simp [make_field, hopt, get_repeated, resolve_serializer, SERIALIZERS]
  | scalar k => cases hu
  | message s => cases hu
  | intEnum s => cases hu
  | noneType => cases hu
  | listOf t => cases hu

/-- C2 witness: the amended statement at the concrete union of int and
str. -/
theorem C2_witness :
    get_optional (PyType.union2 (.scalar .intT) (.scalar .strT)) =
      (false, PyType.union2 (.scalar .intT) (.scalar .strT)) ∧
    make_field 7 "u" (PyType.union2 (.scalar .intT) (.scalar .strT)) =
      .error (.typeNotSerializable
        (PyType.union2 (.scalar .intT) (.scalar .strT))) :=
  C2_union_passes_through 7 "u" (PyType.union2 (.scalar .intT) (.scalar .strT))
    [.scalar .intT, .scalar .strT] rfl (by decide)

set_option maxRecDepth 10000 in
/-- C3: the rendered text of a compiled descriptor is a message block
named after the record, with exactly one line per field in mapping order,
each of the form "[repeated ]type name = number;" — the repeated keyword
appearing exactly when the field shape is Packed or Unpacked repetition;
with distinct field numbers the mapping order is declaration order (no
sorting by number), as the out-of-order `InputRefDataSkill` record
(numbers declared 2, 4, 1, 3, 5, 6) renders concretely. -/
theorem C3_to_proto_shape :
    (∀ (name : String) (inner : InnerClasses) (fields : List (Nat × Field))
        (lvl : Nat),
      proto_lines (.mk name inner fields) lvl =
        (("message " ++ name ++ " \x7b") ::
            (inner_protos inner lvl ++ fields.map field_line ++ ["\x7d"])).map
          (fun l => indentOf lvl ++ l)) ∧
    (∀ p : Nat × Field,
      field_line p =
        "    " ++ (if p.2.is_repeated then "repeated " else "") ++
          protoTypeRender p.2.proto_type ++ " " ++ p.2.name ++ " = " ++
          toString p.1 ++ ";") ∧
    (∀ (name : String) (inner : InnerClasses)
        (decls : List (Nat × String × PyType)) (pairs : List (Nat × Field)),
      collect_fields decls = .ok pairs → (pairs.map Prod.fst).Nodup →
      message name inner decls = .ok (.mk name inner pairs)) ∧
    message "InputRefDataSkill" InnerClasses.nil skillDecls =
      .ok (.mk "InputRefDataSkill" InnerClasses.nil skillFields) ∧
    to_proto (.mk "InputRefDataSkill" InnerClasses.nil skillFields) 0 =
      "message InputRefDataSkill \x7b\n    string name = 2;\n    uint32 occurrences = 4;\n    google.protobuf.UInt32Value skill_id = 1;\n    google.protobuf.UInt32Value category_id = 3;\n    google.protobuf.UInt32Value parent_id = 5;\n    google.protobuf.BoolValue active = 6;\n\x7d" := by
  refine ⟨fun name inner fields lvl => rfl, ?_, ?_, rfl, rfl⟩
  · intro p
    have h : add_repeated p.2 = if p.2.is_repeated then "repeated " else "" := by
      cases p.2 <;> rfl
    rw [field_line, h]
  · intro name inner decls pairs hcf hnd
    unfold message
    rw [hcf]
    exact congrArg (fun fs => Except.ok (MessageDescriptor.mk name inner fs))
      (buildDict_eq_self pairs hnd)

/-- C3 witness: the declaration-order conjunct applied to the concrete
out-of-order `InputRefDataSkill` record, its hypotheses discharged by
evaluation. -/
theorem C3_witness :
    message "InputRefDataSkill" InnerClasses.nil skillDecls =
      .ok (.mk "InputRefDataSkill" InnerClasses.nil skillFields) :=
  C3_to_proto_shape.2.2.1 "InputRefDataSkill" InnerClasses.nil skillDecls
    skillFields rfl (by decide)

/-- C4: for a repeated declared type whose base resolves to a serializer,
the field shape is chosen solely by the strategy's wire-type category —
Unpacked exactly when the category is length-delimited (BYTES), Packed
otherwise; `make_field` takes only (number, name, declared type), so no
caller input can override the choice. -/
theorem C4_packing_rule (n : Nat) (nm : String) (t0 : PyType) (s : Serializer)
    (hrep : (get_repeated (get_optional t0).2).1 = true)
    (hres : resolve_serializer (get_repeated (get_optional t0).2).2 = .ok s) :
    make_field n nm t0 =
      .ok (n,
        if s.wire_type = WireType.bytes then
          Field.unpackedRepeated n nm s
            (if s.hasInner then some s.innerName
             else PYTHON_TO_PROTOBUF_TYPES (get_repeated (get_optional t0).2).2)
        else
          Field.packedRepeated n nm s
            (if s.hasInner then some s.innerName
             else PYTHON_TO_PROTOBUF_TYPES (get_repeated (get_optional t0).2).2)) := by
  simp only [make_field]
  rw [hres, hrep]
  by_cases hw : s.wire_type = WireType.bytes
  · simp [hw]
  · simp [hw]

/-- C4 witness: a repeated text field (length-delimited category) becomes
Unpacked and a repeated uint32 field (varint category) becomes Packed. -/
theorem C4_witness :
    make_field 2 "skills" (PyType.listOf (.scalar .strT)) =
      .ok (2, Field.unpackedRepeated 2 "skills" .stringS (some "string")) ∧
    make_field 4 "ids" (PyType.listOf (.scalar .uint32T)) =
      .ok (4, Field.packedRepeated 4 "ids" .unsignedInt32 (some "uint32")) := by
  constructor
  · have h := C4_packing_rule 2 "skills" (PyType.listOf (.scalar .strT))
      .stringS rfl rfl
    simpa using h
  · have h := C4_packing_rule 4 "ids" (PyType.listOf (.scalar .uint32T))
      .unsignedInt32 rfl rfl
    simpa using h

/-- C5: when the base type (after stripping optional and repeated) is
neither a declared message record, nor an integer-backed enumeration, nor
a key of the scalar serializer table, `make_field` fails with the
"type is not serializable" error naming that base type, and compiling any
record containing such a field fails at definition time (it never yields
a descriptor, so nothing is deferred to encode time). -/
theorem C5_unresolvable_type (n : Nat) (nm : String) (t0 base : PyType)
    (hbase : (get_repeated (get_optional t0).2).2 = base)
    (hmsg : ∀ s, base ≠ PyType.message s)
    (henum : ∀ s, base ≠ PyType.intEnum s)
    (hser : SERIALIZERS base = none) :
    make_field n nm t0 = .error (.typeNotSerializable base) ∧
    ∀ (name : String) (inner : InnerClasses)
      (pre post : List (Nat × String × PyType)) (d : MessageDescriptor),
      message name inner (pre ++ (n, nm, t0) :: post) ≠ .ok d := by
  have hres : resolve_serializer base = .error (.typeNotSerializable base) := by
    cases base with
    | message s => exact absurd rfl (hmsg s)
    | intEnum s => exact absurd rfl (henum s)
    | scalar k => simp [resolve_serializer, hser]
    | noneType => simp [resolve_serializer, hser]
    | listOf t => simp [resolve_serializer, hser]
    | union2 a b => simp [resolve_serializer, hser]
    | union3 a b c => simp [resolve_serializer, hser]
  have hmf : make_field n nm t0 = .error (.typeNotSerializable base) := by
    simp only [make_field]
    rw [hbase, hres]
  refine ⟨hmf, ?_⟩
  intro name inner pre post d
  exact message_not_ok_of_bad name inner (pre ++ (n, nm, t0) :: post)
    (n, nm, t0) (.typeNotSerializable base) (by simp) hmf d

/-- C5 witness: the unresolvable base type `NoneType` fails field and
record construction. -/
theorem C5_witness :
    make_field 1 "x" PyType.noneType =
      .error (.typeNotSerializable PyType.noneType) ∧
    message "M" InnerClasses.nil [(1, "x", PyType.noneType)] ≠
      .ok (MessageDescriptor.mk "M" InnerClasses.nil []) := by
  have h := C5_unresolvable_type 1 "x" PyType.noneType PyType.noneType rfl
    (fun s hc => PyType.noConfusion hc) (fun s hc => PyType.noConfusion hc) rfl
  refine ⟨h.1, ?_⟩
  have h2 := h.2 "M" InnerClasses.nil [] [] (MessageDescriptor.mk "M" InnerClasses.nil [])
  simpa using h2

/-- C6: the optional wrapper is stripped first and repeated is checked on
the already-unwrapped type: an optional list of T analyzes to
(is_optional, is_repeated, base) = (true, true, T), while a list of
optional T is not supported — `make_field` fails with the
"type is not serializable" error on the inner union rather than silently
choosing an encoding. -/
theorem C6_optional_before_repeated (t : PyType) (n : Nat) (nm : String) :
    get_optional (PyType.union2 (.listOf t) .noneType) = (true, .listOf t) ∧
    get_repeated (PyType.listOf t) = (true, t) ∧
    make_field n nm (PyType.listOf (PyType.union2 t .noneType)) =
      .error (.typeNotSerializable (PyType.union2 t .noneType)) := by
  refine ⟨?_, rfl, ?_⟩
  · unfold get_optional
    simp [unionArgs, pySet]
  · simp [make_field, get_optional, unionArgs, get_repeated,
      resolve_serializer, SERIALIZERS]

/-- C7: compiling the same record definition twice yields descriptors
with identical field count, field numbers, field names and schema type
names, and identical rendered schema text. -/
theorem C7_determinism (name : String) (inner : InnerClasses)
    (decls : List (Nat × String × PyType)) (d1 d2 : MessageDescriptor)
    (h1 : message name inner decls = .ok d1)
    (h2 : message name inner decls = .ok d2) :
    d1.fields.length = d2.fields.length ∧
    d1.fields.map Prod.fst = d2.fields.map Prod.fst ∧
    d1.fields.map (fun p => p.2.name) = d2.fields.map (fun p => p.2.name) ∧
    d1.fields.map (fun p => p.2.proto_type) =
      d2.fields.map (fun p => p.2.proto_type) ∧
    to_proto d1 0 = to_proto d2 0 := by
  rw [h1] at h2
  have hd : d1 = d2 := Except.ok.inj h2
  subst hd
  exact ⟨rfl, rfl, rfl, rfl, rfl⟩

/-- C7 witness: determinism applied to two compilations of the concrete
`GitInfo` record. -/
theorem C7_witness :
    (MessageDescriptor.mk "GitInfo" InnerClasses.nil gitInfoFields).fields.map
        Prod.fst =
      (MessageDescriptor.mk "GitInfo" InnerClasses.nil gitInfoFields).fields.map
        Prod.fst ∧
    to_proto (MessageDescriptor.mk "GitInfo" InnerClasses.nil gitInfoFields) 0 =
      to_proto (MessageDescriptor.mk "GitInfo" InnerClasses.nil gitInfoFields) 0 := by
  have h := C7_determinism "GitInfo" InnerClasses.nil gitInfoDecls
    (MessageDescriptor.mk "GitInfo" InnerClasses.nil gitInfoFields)
    (MessageDescriptor.mk "GitInfo" InnerClasses.nil gitInfoFields) rfl rfl
  exact ⟨h.2.1, h.2.2.2.2⟩

/-- C8: `merge_from` applies every field's merge policy over the mapping
in declaration order: a repeated field's result is a's sequence
concatenated with b's sequence (a-then-b order, length is the sum of the
lengths, nothing deduplicated), and a non-repeated (hence also optional)
field keeps a's value whenever b's value is absent. -/
theorem C8_merge_law (fields : List (Nat × Field)) (a b : String → Value)
    (n : Nat) (f : Field) (hmem : (n, f) ∈ fields)
    (hnd : (fields.map (fun p => p.2.name)).Nodup) :
    (∀ xs ys, f.is_repeated = true →
      a f.name = .listV xs → b f.name = .listV ys →
      merge_from fields a b f.name = .listV (xs ++ ys) ∧
      (xs ++ ys).length = xs.length + ys.length) ∧
    (f.is_repeated = false → b f.name = .absent →
      merge_from fields a b f.name = a f.name) := by
  have key := merge_from_mem fields b n f hmem hnd a
  constructor
  · intro xs ys hrep ha hb
    refine ⟨?_, List.length_append xs ys⟩
    rw [key, ha, hb]
    cases f with
    | nonRepeated num nm s o pt => simp [Field.is_repeated] at hrep
    | packedRepeated num nm s pt => simp [Field.merge]
    | unpackedRepeated num nm s pt => simp [Field.merge]
  · intro hrep hb
    rw [key, hb]
    cases f with
    | nonRepeated num nm s o pt => simp [Field.merge]
    | packedRepeated num nm s pt => simp [Field.is_repeated] at hrep
    | unpackedRepeated num nm s pt => simp [Field.is_repeated] at hrep

/-- C8 witness: the merge laws at a concrete pair of instances — the
repeated field concatenates a-then-b, the optional field keeps a's value
because b's is absent. -/
theorem C8_witness :
    merge_from mergeDemoFields mergeDemoA mergeDemoB "skills" =
      .listV [.strE "a1", .strE "a2", .strE "b1"] ∧
    merge_from mergeDemoFields mergeDemoA mergeDemoB "score" = .intV 5 := by
  have h2 := C8_merge_law mergeDemoFields mergeDemoA mergeDemoB 2
    (.unpackedRepeated 2 "skills" .stringS (some "string"))
    (by decide) (by decide)
  have h1 := C8_merge_law mergeDemoFields mergeDemoA mergeDemoB 1
    (.nonRepeated 1 "score" .floatS true (some "float"))
    (by decide) (by decide)
  constructor
  · have h := (h2.1 [.strE "a1", .strE "a2"] [.strE "b1"] rfl rfl rfl).1
    simpa using h
  · have h := h1.2 rfl rfl
    simpa using h

/-- C9: the OneOf accessor returns the value of the first member field,
in the order the fields were given, whose current value is non-absent,
and the absent marker when every member is absent; in this embedding the
accessor is a pure function of the member list and the instance, so it
mutates neither. -/
theorem C9_oneof_first (fields : List Field) (m : String → Value) :
    ((∀ f ∈ fields, m f.name = Value.absent) →
      OneOf.get fields m = Value.absent) ∧
    (∀ i : Fin fields.length,
      (∀ j : Fin fields.length, (j : Nat) < (i : Nat) →
        m (fields.get j).name = Value.absent) →
      m (fields.get i).name ≠ Value.absent →
      OneOf.get fields m = m (fields.get i).name) := by
  induction fields with
  | nil =>
    constructor
    · intro _; rfl
    · intro i; exact i.elim0
  | cons f rest ih =>
    constructor
    · intro hall
      have hf : m f.name = Value.absent := hall f (List.mem_cons_self f rest)
      have step : OneOf.get (f :: rest) m = OneOf.get rest m := by
        show (if m f.name ≠ Value.absent then m f.name else OneOf.get rest m) =
          OneOf.get rest m
        rw [if_neg (not_not_intro hf)]
      rw [step]
      exact ih.1 (fun g hg => hall g (List.mem_cons_of_mem f hg))
    · intro i hprev hcur
      rcases i with ⟨iv, hi⟩
      cases iv with
      | zero =>
        have hf : m f.name ≠ Value.absent := hcur
        have step : OneOf.get (f :: rest) m = m f.name := by
          show (if m f.name ≠ Value.absent then m f.name else OneOf.get rest m) =
            m f.name
          rw [if_pos hf]
        exact step
      | succ j =>
        have hf : m f.name = Value.absent :=
          hprev ⟨0, Nat.succ_pos rest.length⟩ (Nat.succ_pos j)
        have step : OneOf.get (f :: rest) m = OneOf.get rest m := by
          show (if m f.name ≠ Value.absent then m f.name else OneOf.get rest m) =
            OneOf.get rest m
          rw [if_neg (not_not_intro hf)]
        rw [step]
        have hj : j < rest.length := Nat.lt_of_succ_lt_succ hi
        have h1 : ∀ jj : Fin rest.length, (jj : Nat) < j →
            m (rest.get jj).name = Value.absent := by
          intro jj hlt
          exact hprev ⟨jj.val + 1, Nat.succ_lt_succ jj.isLt⟩ (Nat.succ_lt_succ hlt)
        exact ih.2 ⟨j, hj⟩ h1 hcur

/-- C9 witness: the accessor at a concrete instance — it skips the absent
first member and returns the second member's value, and returns the
absent marker on the all-absent instance. -/
theorem C9_witness :
    OneOf.get oneofDemoFields oneofDemoInstance = .strV "kit" ∧
    OneOf.get oneofDemoFields (fun _ => Value.absent) = Value.absent := by
  constructor
  · have h := (C9_oneof_first oneofDemoFields oneofDemoInstance).2
      ⟨1, by decide⟩ (by decide) (by decide)
    simpa using h
  · exact (C9_oneof_first oneofDemoFields (fun _ => Value.absent)).1
      (fun f hf => rfl)

/-- C10: the raw byte-string scalar types (`bytes`, `ByteString`) render
with schema type name "str" rather than a distinct bytes keyword; and
whenever the serializer comes from the registry table (so carries no
inner descriptor), the schema type name is exactly the name-table lookup
defaulting to None when the key is absent — in particular an
integer-backed enumeration, absent from the name table, still builds a
field whose schema type name is None, which `field_line` renders as the
literal text "None". -/
theorem C10_schema_type_names (n : Nat) (nm : String) :
    (make_field n nm (.scalar .bytesT) =
        .ok (n, .nonRepeated n nm .bytesS false (some "str")) ∧
      make_field n nm (.scalar .byteStringT) =
        .ok (n, .nonRepeated n nm .bytesS false (some "str"))) ∧
    (∀ (t : PyType) (s : Serializer), SERIALIZERS t = some s →
      make_field n nm t =
        .ok (n, .nonRepeated n nm s false (PYTHON_TO_PROTOBUF_TYPES t))) ∧
    (∀ e : String,
      PYTHON_TO_PROTOBUF_TYPES (.intEnum e) = none ∧
      make_field n nm (.intEnum e) =
        .ok (n, .nonRepeated n nm (.intEnumS e) false none)) ∧
    field_line (7, .nonRepeated 7 "status" (.intEnumS "Status") false none) =
      "    None status = 7;" := by
  refine ⟨⟨rfl, rfl⟩, ?_, fun e => ⟨rfl, rfl⟩, rfl⟩
  intro t s h
  cases t with
  | scalar k =>
    cases k <;> (simp only [SERIALIZERS, Option.some.injEq] at h; subst h; rfl)
  | message s2 => simp [SERIALIZERS] at h
  | intEnum s2 => simp [SERIALIZERS] at h
  | noneType => simp [SERIALIZERS] at h
  | listOf t2 => simp [SERIALIZERS] at h
  | union2 a b2 => simp [SERIALIZERS] at h
  | union3 a b2 c => simp [SERIALIZERS] at h

/-- C10 witness: the table-lookup conjunct at the concrete wrapper type
`UInt32Value`. -/
theorem C10_witness :
    make_field 3 "parent_id" (PyType.scalar .uint32Value) =
      .ok (3, Field.nonRepeated 3 "parent_id" .unsignedInt32 false
        (PYTHON_TO_PROTOBUF_TYPES (PyType.scalar .uint32Value))) :=
  (C10_schema_type_names 3 "parent_id").2.1 (PyType.scalar .uint32Value)
    .unsignedInt32 rfl

end PB
